import Mathlib

/-!
player-manager: a shallow embedding of `src/main.cpp`

The program listens for media players, reads the metadata of the playing
track and prints one JSON line per update.  This development embeds the
string formatter (`find_and_replace_parenthesis`, `edit_title`,
`truncate_string`), the presenter (`get_string_value`,
`string_to_lowercase`, `show_metadata`) and the allowlist gate of the
lifecycle manager (`initialize_player`, `on_name_appeared`).

Conventions of the embedding:

* a `std::string` is the list of its bytes (`char` values as naturals);
* `std::size_t` arithmetic is carried out modulo `2 ^ 64`;
* a call whose behaviour the C++ standard leaves undefined yields `none`;
* the streams `std::cout` and `std::cerr` are the lists of bytes written so
  far, threaded through the functions that write to them;
* `config.hpp` is not part of the sources, so `SUPPORTED_PLAYERS`,
  `TITLE_LENGTH` and `ARTIST_LENGTH` are fields of a `Config` parameter.
-/

namespace PlayerManager

/-! ## Data model -/

/-- A `std::string`: the sequence of its bytes. -/
abbrev CppString := List Nat

/-- The bytes (UTF-8) of a string literal of the source. -/
def bytes (s : String) : CppString :=
  (s.toList.flatMap String.utf8EncodeChar).map UInt8.toNat

/-- The constants that `config.hpp` supplies. `SUPPORTED_PLAYERS` lists the
initialisers of the array `supported_players`; the two widths are converted to
`std::size_t` where the code uses them. -/
structure Config where
  SUPPORTED_PLAYERS : List CppString
  TITLE_LENGTH : Nat
  ARTIST_LENGTH : Nat

/-- Number of values of `std::size_t`. -/
def SIZE_RANGE : Nat := 2 ^ 64

/-- Largest length of a `std::string` (at most `PTRDIFF_MAX`). -/
def max_size : Nat := 2 ^ 63 - 1

/-- Subtraction of two `std::size_t` values: it wraps around. -/
def size_sub (a b : Nat) : Nat :=
  (a % SIZE_RANGE + SIZE_RANGE - b % SIZE_RANGE) % SIZE_RANGE

/-- Addition of two `std::size_t` values: it wraps around. -/
def size_add (a b : Nat) : Nat :=
  (a % SIZE_RANGE + b % SIZE_RANGE) % SIZE_RANGE

/-- The conversion `static_cast<std::ptrdiff_t>` of a `std::size_t`. -/
def to_ptrdiff (w : Nat) : Int :=
  if w % SIZE_RANGE < 2 ^ 63 then ((w % SIZE_RANGE : Nat) : Int)
  else ((w % SIZE_RANGE : Nat) : Int) - (SIZE_RANGE : Int)

/-! ## String formatter -/

/-- The member `std::string::find(needle)`: the lowest position at which
`needle` starts, `none` standing for `npos`. -/
def find : CppString → CppString → Option Nat
  | [], needle => if needle.isPrefixOf [] then some 0 else none
  | c :: cs, needle =>
    if needle.isPrefixOf (c :: cs) then some 0
    else (find cs needle).map (· + 1)

/-- Lines 15-28 of `main.cpp`. -/
def find_and_replace_parenthesis (title needle : CppString) : CppString :=
  match find title needle with
  | some position =>
    let position :=
      if position > 0 ∧ title[position - 1]? = some 32 then position - 1
      else position
    title.take position
  | none => title

/-- Lines 30-34 of `main.cpp`. -/
def edit_title (title : CppString) : CppString :=
  let new_title := find_and_replace_parenthesis title (bytes "(ft")
  find_and_replace_parenthesis new_title (bytes "(feat")

/-- The literal `"…"`: the UTF-8 encoding of the horizontal ellipsis. -/
def ellipsis : CppString := bytes "…"

/-- Lines 36-46 of `main.cpp`. In the truncating branch the copy is built from
the iterator range `[begin, begin + width - 3)`, which is a valid range only
when `0 ≤ width - 3 ≤ length`; otherwise the behaviour is undefined. -/
def truncate_string (string : CppString) (width : Nat) : Option CppString :=
  if string.length > width then
    let last : Int := to_ptrdiff width - to_ptrdiff 3
    if 0 ≤ last ∧ last ≤ (string.length : Int) then
      some (string.take last.toNat ++ ellipsis)
    else none
  else some string

/-! ## Metadata presenter -/

/-- What one of the `playerctl_player_get_*` readers hands back: the message
of the `GError` it set (if any) and the returned `gchar*` (`none` for a null
pointer). -/
structure ReadResult where
  error : Option CppString
  value : Option CppString
  deriving DecidableEq

/-- The properties of a player handle that the presenter reads. -/
structure PlayerctlPlayer where
  player_name : CppString
  status : CppString
  title : ReadResult
  artist : ReadResult
  album : ReadResult
  deriving DecidableEq

/-- The two output streams: everything written so far. -/
structure Streams where
  cout : CppString
  cerr : CppString
  deriving DecidableEq

/-- Lines 48-65 of `main.cpp`: the string read, and the streams afterwards. -/
def get_string_value (read : ReadResult) (message : CppString) (io : Streams) :
    CppString × Streams :=
  match read.error with
  | some error_message =>
    ([], { io with cerr := io.cerr ++ message ++ error_message ++ bytes "\n" })
  | none =>
    match read.value with
    | none => ([], io)
    | some value => (value, io)

/-- The function `std::tolower` on an `unsigned char`, in the "C" locale (the
program never calls `setlocale`). -/
def tolower (letter : Nat) : Nat :=
  if 65 ≤ letter ∧ letter ≤ 90 then letter + 32 else letter

/-- Lines 67-71 of `main.cpp`. -/
def string_to_lowercase (string : CppString) : CppString :=
  string.map tolower

/-- Line 96 of `main.cpp`:
`std::max(static_cast<std::size_t>(0), TITLE_LENGTH - artist.length())`.
The template `std::max` takes two arguments of one type, here `std::size_t`,
so the difference is computed in `std::size_t`: it wraps around instead of
going below zero. -/
def free_space_title (cfg : Config) (artist : CppString) : Nat :=
  max 0 (size_sub cfg.TITLE_LENGTH artist.length)

/-- Line 98 of `main.cpp`:
`std::max(static_cast<std::size_t>(0), ARTIST_LENGTH - title.length())`. -/
def free_space_artist (cfg : Config) (title : CppString) : Nat :=
  max 0 (size_sub cfg.ARTIST_LENGTH title.length)

/-- Line 101 of `main.cpp`: the width passed with the title. -/
def title_width (cfg : Config) (artist : CppString) : Nat :=
  size_add cfg.ARTIST_LENGTH (free_space_title cfg artist)

/-- Line 103 of `main.cpp`: the width passed with the artist. -/
def artist_width (cfg : Config) (title : CppString) : Nat :=
  size_add cfg.TITLE_LENGTH (free_space_artist cfg title)

/-- Lines 105-110 of `main.cpp`: the bytes written to `std::cout`. -/
def output_line (truncated_title truncated_album player_name status title artist
    album : CppString) : CppString :=
  bytes "\x7b\"text\": \"" ++
  (truncated_title ++ bytes " - " ++ truncated_album) ++
  bytes "\", \"tooltip\": \"" ++
  (player_name ++ bytes " (" ++ status ++ bytes "): " ++ title ++ bytes " - " ++
    artist ++ bytes " - " ++ album) ++
  (bytes "\"\x7d" ++ bytes "\n")

/-- Lines 73-112 of `main.cpp`: the streams after the call, `none` when a call
of `truncate_string` has undefined behaviour. -/
def show_metadata (cfg : Config) (player : PlayerctlPlayer) (io : Streams) :
    Option Streams :=
  let player_name := player.player_name
  let status := string_to_lowercase player.status
  let (full_title, io) :=
    get_string_value player.title (bytes "Error obtaining title! ") io
  if full_title.isEmpty then some io
  else
    let (artist, io) :=
      get_string_value player.artist (bytes "Error obtaining artist! ") io
    let title := edit_title full_title
    let (album, io) :=
      get_string_value player.album (bytes "Error obtaining album! ") io
    match truncate_string title (title_width cfg artist) with
    | none => none
    | some truncated_title =>
      match truncate_string artist (artist_width cfg title) with
      | none => none
      | some truncated_album =>
        let line := output_line truncated_title truncated_album player_name
          status title artist album
        some { io with cout := io.cout ++ line }

/-! ## Player lifecycle manager -/

/-- The library type `PlayerctlPlayerName`: the fields the program reads. -/
structure PlayerctlPlayerName where
  name : CppString
  source : Nat

/-- What the program has done to the library objects: the handles created by
`playerctl_player_new_from_name`, the handles whose `metadata` signal is
connected to `on_metadata`, the players the manager manages, and `std::cerr`. -/
structure ManagerState where
  handles : List PlayerctlPlayer
  metadata_callbacks : List PlayerctlPlayer
  players : List PlayerctlPlayer
  cerr : CppString
  deriving DecidableEq

/-- Lines 133-148 of `main.cpp`. The library call
`playerctl_player_new_from_name` is the parameter `new_from_name`: it yields
the message of the error it set, or the new handle. -/
def initialize_player
    (new_from_name : PlayerctlPlayerName → Except CppString PlayerctlPlayer)
    (state : ManagerState) (player_name : PlayerctlPlayerName) : ManagerState :=
  match new_from_name player_name with
  | .error error_message =>
    { state with cerr := state.cerr ++ bytes "Error creating playerctl player! "
        ++ error_message ++ bytes "\n" }
  | .ok player =>
    { state with
      handles := player :: state.handles
      metadata_callbacks := player :: state.metadata_callbacks
      players := player :: state.players }

/-- The call `std::ranges::find(first, last, value)` on the allowlist: the
index of the first element equal to `value`, the length for `last`. -/
def ranges_find : List CppString → CppString → Nat
  | [], _ => 0
  | entry :: rest, value => if entry = value then 0 else ranges_find rest value + 1

/-- Lines 165-172 of `main.cpp`. -/
def on_name_appeared (cfg : Config)
    (new_from_name : PlayerctlPlayerName → Except CppString PlayerctlPlayer)
    (state : ManagerState) (player_name : PlayerctlPlayerName) : ManagerState :=
  if ranges_find cfg.SUPPORTED_PLAYERS player_name.name ≠
      cfg.SUPPORTED_PLAYERS.length then
    initialize_player new_from_name state player_name
  else state



/-! ## The shape of an output line

The specification fixes the output format: one JSON object with the two string
fields `text` and `tooltip`, then a newline. The definitions of this section
follow the JSON grammar (RFC 8259) for such an object, over bytes; they are
not taken from `main.cpp`, which has no JSON code. -/

/-- JSON whitespace: space, tab, line feed, carriage return. -/
def json_ws (c : Nat) : Bool :=
  c = 32 ∨ c = 9 ∨ c = 10 ∨ c = 13

/-- Drop leading JSON whitespace. -/
def skip_ws : CppString → CppString
  | [] => []
  | c :: cs => if json_ws c then skip_ws cs else c :: cs

/-- A hexadecimal digit. -/
def is_hex (c : Nat) : Bool :=
  (48 ≤ c ∧ c ≤ 57) ∨ (65 ≤ c ∧ c ≤ 70) ∨ (97 ≤ c ∧ c ≤ 102)

/-- Where the scanner stands inside a JSON string: between characters, right
after a backslash, or with `n + 1` hexadecimal digits of a `\u` escape to
come. -/
inductive CharState where
  | plain : CharState
  | escape : CharState
  | hex : Nat → CharState
  deriving DecidableEq

/-- The characters of a JSON string after its opening quote: the raw contents
up to the closing quote and the input after it. Unescaped quotes, backslashes
and control characters (below `0x20`) are not allowed inside. -/
def json_chars : CharState → CppString → Option (CppString × CppString)
  | _, [] => none
  | .plain, c :: cs =>
    if c = 34 then some ([], cs)
    else if c < 32 then none
    else if c = 92 then (json_chars .escape cs).map (fun r => (c :: r.1, r.2))
    else (json_chars .plain cs).map (fun r => (c :: r.1, r.2))
  | .escape, c :: cs =>
    if c = 117 then (json_chars (.hex 3) cs).map (fun r => (c :: r.1, r.2))
    else if c ∈ [34, 92, 47, 98, 102, 110, 114, 116] then
      (json_chars .plain cs).map (fun r => (c :: r.1, r.2))
    else none
  | .hex n, c :: cs =>
    if is_hex c then
      (json_chars (if n = 0 then .plain else .hex (n - 1)) cs).map
        (fun r => (c :: r.1, r.2))
    else none

/-- A JSON string at the head of the input: its raw contents and the rest. -/
def json_string : CppString → Option (CppString × CppString)
  | [] => none
  | c :: cs => if c = 34 then json_chars .plain cs else none

/-- The given structural character at the head of the input. -/
def json_expect (c : Nat) : CppString → Option CppString
  | [] => none
  | d :: cs => if d = c then some cs else none

/-- A JSON object with exactly two members whose values are strings: the two
names, the two values (raw) and the input after the closing brace. -/
def json_two_strings (input : CppString) :
    Option (CppString × CppString × CppString × CppString × CppString) := do
  let rest ← json_expect 123 (skip_ws input)
  let (name1, rest) ← json_string (skip_ws rest)
  let rest ← json_expect 58 (skip_ws rest)
  let (value1, rest) ← json_string (skip_ws rest)
  let rest ← json_expect 44 (skip_ws rest)
  let (name2, rest) ← json_string (skip_ws rest)
  let rest ← json_expect 58 (skip_ws rest)
  let (value2, rest) ← json_string (skip_ws rest)
  let rest ← json_expect 125 (skip_ws rest)
  pure (name1, value1, name2, value2, rest)

/-- The output contract of the specification: the bytes are one JSON object
with exactly the two string fields `text` and `tooltip`, in this order,
followed by a newline and nothing else. -/
def is_text_tooltip_line (line : CppString) : Bool :=
  match json_two_strings line with
  | some (name1, _, name2, _, rest) =>
    name1 == bytes "text" && name2 == bytes "tooltip" && rest == bytes "\n"
  | none => false

/-- A string that needs no escaping inside a JSON string: no control
character, no double quote, no backslash. -/
def needs_no_escape (s : CppString) : Prop :=
  ∀ c ∈ s, 32 ≤ c ∧ c ≠ 34 ∧ c ≠ 92

instance needs_no_escape_decidable (s : CppString) :
    Decidable (needs_no_escape s) :=
  inferInstanceAs (Decidable (∀ c ∈ s, 32 ≤ c ∧ c ≠ 34 ∧ c ≠ 92))
/-! ## Arithmetic of the embedding -/

theorem to_ptrdiff_of_lt (w : Nat) (h : w < 2 ^ 63) : to_ptrdiff w = (w : Int) := by
  have h1 : w % SIZE_RANGE = w := Nat.mod_eq_of_lt (by unfold SIZE_RANGE; omega)
  unfold to_ptrdiff
  rw [h1, if_pos h]

theorem to_ptrdiff_three : to_ptrdiff 3 = 3 := by
  rw [to_ptrdiff_of_lt 3 (by norm_num)]; rfl

/-- In the truncating branch with a width of at least three the copy is the
first `width - 3` bytes followed by the ellipsis. -/
theorem truncate_string_long (s : CppString) (width : Nat) (hw : 3 ≤ width)
    (hs : s.length ≤ max_size) (hl : width < s.length) :
    truncate_string s width = some (s.take (width - 3) ++ ellipsis) := by
  have hlt : width < 2 ^ 63 := by unfold max_size at hs; omega
  unfold truncate_string
  rw [if_pos hl]
  simp only [to_ptrdiff_of_lt width hlt, to_ptrdiff_three]
  have h1 : (0 : Int) ≤ (width : Int) - 3 ∧ (width : Int) - 3 ≤ (s.length : Int) := by
    constructor <;> omega
  rw [if_pos h1]
  have h2 : ((width : Int) - 3).toNat = width - 3 := by omega
  rw [h2]

theorem truncate_string_short (s : CppString) (width : Nat) (hl : s.length ≤ width) :
    truncate_string s width = some s := by
  unfold truncate_string
  rw [if_neg (by omega)]

theorem ellipsis_length : ellipsis.length = 3 := by decide

/-! ## Claims about `truncate_string` -/

/-- C2: for every text (a `std::string`, so of length at most `max_size`) and
every `maxWidth ≥ 3`, `truncate_string` returns the text unchanged when its
length is at most `maxWidth`, and otherwise the first `maxWidth - 3` bytes of
the text followed by one ellipsis glyph; `truncate_string "Short" 20` is
`"Short"`. -/
theorem truncate_string_spec (text : CppString) (maxWidth : Nat)
    (hw : 3 ≤ maxWidth) (hs : text.length ≤ max_size) :
    (text.length ≤ maxWidth → truncate_string text maxWidth = some text) ∧
    (maxWidth < text.length →
      truncate_string text maxWidth =
        some (text.take (maxWidth - 3) ++ bytes "…")) ∧
    truncate_string (bytes "Short") 20 = some (bytes "Short") :=
  ⟨truncate_string_short text maxWidth,
   truncate_string_long text maxWidth hw hs,
   by decide⟩

theorem truncate_string_spec_witness :
    truncate_string (bytes "A rather long title") 10 =
      some (bytes "A rathe…") :=
  ((truncate_string_spec (bytes "A rather long title") 10 (by decide)
    (by decide)).2.1 (by decide)).trans (by decide)

/-- C7 as the specification words it: the result would be `"Hello W…"`. The
code keeps `8 - 3 = 5` bytes, so this is not what it returns. -/
theorem truncate_hello_world_not_spec :
    truncate_string (bytes "Hello World") 8 ≠ some (bytes "Hello W…") := by
  decide

/-- C7, amended: `truncate_string "Hello World" 8` is `"Hello…"`, the first
five bytes followed by the ellipsis. -/
theorem truncate_hello_world :
    truncate_string (bytes "Hello World") 8 = some (bytes "Hello…") := by
  decide

/-- C10: for every string `s` (of length at most `max_size`) and every
`width ≥ 3`, `truncate_string s width` returns a string of at most `width`
bytes, of exactly `width` bytes when `s` is longer than `width` (the kept
`width - 3` bytes and the three bytes of the ellipsis), and the kept part is a
prefix of `s`. -/
theorem truncate_string_length (s : CppString) (width : Nat) (hw : 3 ≤ width)
    (hs : s.length ≤ max_size) :
    ∃ kept tail, truncate_string s width = some (kept ++ tail) ∧
      kept <+: s ∧ (tail = [] ∨ tail = ellipsis) ∧
      (kept ++ tail).length ≤ width ∧
      (width < s.length →
        kept.length = width - 3 ∧ tail = ellipsis ∧ tail.length = 3 ∧
        (kept ++ tail).length = width) := by
  by_cases hl : width < s.length
  · refine ⟨s.take (width - 3), ellipsis, truncate_string_long s width hw hs hl,
      List.take_prefix _ _, Or.inr rfl, ?_, fun _ => ⟨?_, rfl, ellipsis_length, ?_⟩⟩
    · rw [List.length_append, List.length_take, ellipsis_length]; omega
    · rw [List.length_take]; omega
    · rw [List.length_append, List.length_take, ellipsis_length]; omega
  · refine ⟨s, [], ?_, List.prefix_refl s, Or.inl rfl, ?_, fun h => absurd h hl⟩
    · rw [List.append_nil]; exact truncate_string_short s width (by omega)
    · rw [List.append_nil]; omega

theorem truncate_string_length_witness :
    ∃ kept tail, truncate_string (bytes "Hello World") 8 = some (kept ++ tail) ∧
      kept <+: bytes "Hello World" ∧ (tail = [] ∨ tail = ellipsis) ∧
      (kept ++ tail).length ≤ 8 ∧
      (8 < (bytes "Hello World").length →
        kept.length = 8 - 3 ∧ tail = ellipsis ∧ tail.length = 3 ∧
        (kept ++ tail).length = 8) :=
  truncate_string_length (bytes "Hello World") 8 (by decide) (by decide)


/-! ## Field widths -/

/-- The true half of the width rule: while the other field is no longer than
its base width, the width handed to `truncate_string` is the sum of the base
width and the shortfall. -/
theorem title_width_of_le (cfg : Config) (artist : CppString)
    (hb : cfg.TITLE_LENGTH + cfg.ARTIST_LENGTH < SIZE_RANGE)
    (hl : artist.length ≤ cfg.TITLE_LENGTH) :
    title_width cfg artist =
      cfg.ARTIST_LENGTH + (cfg.TITLE_LENGTH - artist.length) := by
  unfold title_width free_space_title size_add size_sub
  unfold SIZE_RANGE at *
  rw [Nat.zero_max]
  omega

/-- In general the subtraction wraps around once the other field is longer
than its base width, `std::max` with zero changes nothing, and the sum wraps
back: the width is `ARTIST_LENGTH + TITLE_LENGTH - length` modulo `2 ^ 64`. -/
theorem title_width_eq (cfg : Config) (artist : CppString)
    (hb : cfg.TITLE_LENGTH + cfg.ARTIST_LENGTH < SIZE_RANGE)
    (hs : artist.length ≤ max_size) :
    title_width cfg artist =
      (cfg.ARTIST_LENGTH + cfg.TITLE_LENGTH + SIZE_RANGE - artist.length)
        % SIZE_RANGE := by
  unfold title_width free_space_title size_add size_sub
  unfold SIZE_RANGE max_size at *
  rw [Nat.zero_max]
  omega

/-- C6 at `TITLE_LENGTH = ARTIST_LENGTH = 20` and an other field of 25 bytes:
the code hands `truncate_string` the width 15 for either field, where the
width rule of the specification gives 20. -/
theorem adjusted_width_wraps :
    title_width ⟨[], 20, 20⟩ (List.replicate 25 65) = 15 ∧
    artist_width ⟨[], 20, 20⟩ (List.replicate 25 65) = 15 ∧
    free_space_title ⟨[], 20, 20⟩ (List.replicate 25 65) = 2 ^ 64 - 5 := by
  decide

/-- C9 at `TITLE_LENGTH = ARTIST_LENGTH = 20`, a title of 10 bytes and an
artist of 38 bytes: both base widths are at least 3, yet the title is handed
to `truncate_string` with the width 2, its truncating branch is entered and
the iterator range it builds ends before the start of the string. -/
theorem presenter_reaches_narrow_width :
    3 ≤ (⟨[], 20, 20⟩ : Config).TITLE_LENGTH ∧
    3 ≤ (⟨[], 20, 20⟩ : Config).ARTIST_LENGTH ∧
    (bytes "Long title").length = 10 ∧
    (bytes "Emerson, Lake and Palmer and Orchestra").length = 38 ∧
    title_width ⟨[], 20, 20⟩ (bytes "Emerson, Lake and Palmer and Orchestra") = 2 ∧
    to_ptrdiff 2 - to_ptrdiff 3 = -1 ∧
    truncate_string (edit_title (bytes "Long title"))
      (title_width ⟨[], 20, 20⟩ (bytes "Emerson, Lake and Palmer and Orchestra"))
      = none := by
  decide

/-! ## Presenter -/

/-- C3 at `TITLE_LENGTH = ARTIST_LENGTH = 20` with the title
`"Track (ft Someone)"`, the album `"Record"`, the status `"Playing"`, the
player `"spotify"` and an artist of 39 bytes: the presenter calls
`truncate_string` on the edited title `"Track"` with the width 1, which has
undefined behaviour, so no line is promised. -/
theorem show_metadata_long_artist :
    show_metadata ⟨[], 20, 20⟩
      ⟨bytes "spotify", bytes "Playing",
       ⟨none, some (bytes "Track (ft Someone)")⟩,
       ⟨none, some (bytes "The Jimi Hendrix Experience and Friends")⟩,
       ⟨none, some (bytes "Record")⟩⟩ ⟨[], []⟩ = none := by
  decide

/-- A read that set an error yields the empty string. -/
theorem get_string_value_of_error (read : ReadResult) (message error_message : CppString)
    (io : Streams) (h : read.error = some error_message) :
    (get_string_value read message io).1 = [] := by
  unfold get_string_value
  rw [h]

/-- A read that returned a null pointer yields the empty string. -/
theorem get_string_value_of_null (read : ReadResult) (message : CppString)
    (io : Streams) (h : read.value = none) :
    (get_string_value read message io).1 = [] := by
  unfold get_string_value
  rw [h]
  cases read.error <;> rfl

/-- C4: when the title read yields the empty string (an error was set, a null
pointer came back, or the title is empty), `show_metadata` returns with
`std::cout` exactly as it found it, whatever the other properties are. -/
theorem show_metadata_empty_title (cfg : Config) (player : PlayerctlPlayer)
    (io : Streams)
    (h : (get_string_value player.title (bytes "Error obtaining title! ") io).1 = []) :
    (show_metadata cfg player io).map (fun after => after.cout) = some io.cout := by
  unfold show_metadata
  unfold get_string_value at h ⊢
  rcases player with ⟨name, status, ⟨terr, tval⟩, artist, album⟩
  cases terr with
  | some e => simp
  | none =>
    cases tval with
    | none => simp
    | some v =>
      simp only at h
      subst h
      simp

theorem show_metadata_empty_title_witness :
    (show_metadata ⟨[bytes "spotify"], 20, 20⟩
      ⟨bytes "spotify", bytes "Playing", ⟨some (bytes "no such property"), none⟩,
       ⟨none, some (bytes "Band")⟩, ⟨none, some (bytes "Record")⟩⟩
      ⟨bytes "earlier output\n", []⟩).map (fun after => after.cout)
      = some (bytes "earlier output\n") :=
  show_metadata_empty_title _ _ _ (by decide)

/-! ## Allowlist gate -/

theorem ranges_find_eq_length (entries : List CppString) (value : CppString)
    (h : value ∉ entries) : ranges_find entries value = entries.length := by
  induction entries with
  | nil => rfl
  | cons entry rest ih =>
    have h1 : entry ≠ value := fun e => h (e ▸ List.mem_cons_self _ _)
    have h2 : value ∉ rest := fun m => h (List.mem_cons_of_mem _ m)
    simp [ranges_find, h1, ih h2]

/-- C8: for every manager state, every behaviour of the handle constructor
and every player name that is not in `supported_players`, `on_name_appeared`
leaves the state as it is: no handle is created, no metadata callback is
connected, the managed players are the same. Hence whenever one of these three
changes, the name is in the allowlist. -/
theorem on_name_appeared_allowlist (cfg : Config)
    (new_from_name : PlayerctlPlayerName → Except CppString PlayerctlPlayer)
    (state : ManagerState) (player_name : PlayerctlPlayerName) :
    (player_name.name ∉ cfg.SUPPORTED_PLAYERS →
      on_name_appeared cfg new_from_name state player_name = state) ∧
    (((on_name_appeared cfg new_from_name state player_name).handles ≠ state.handles ∨
      (on_name_appeared cfg new_from_name state player_name).metadata_callbacks
        ≠ state.metadata_callbacks ∨
      (on_name_appeared cfg new_from_name state player_name).players ≠ state.players) →
      player_name.name ∈ cfg.SUPPORTED_PLAYERS) := by
  have key : player_name.name ∉ cfg.SUPPORTED_PLAYERS →
      on_name_appeared cfg new_from_name state player_name = state := by
    intro h
    unfold on_name_appeared
    rw [ranges_find_eq_length _ _ h]
    simp
  refine ⟨key, fun hne => ?_⟩
  by_contra hmem
  rw [key hmem] at hne
  simp at hne

theorem on_name_appeared_allowlist_witness :
    on_name_appeared ⟨[bytes "spotify", bytes "mpv"], 20, 20⟩
      (fun name => .ok ⟨name.name, bytes "Playing", ⟨none, none⟩, ⟨none, none⟩,
        ⟨none, none⟩⟩)
      ⟨[], [], [], []⟩ ⟨bytes "firefox", 0⟩ = ⟨[], [], [], []⟩ :=
  (on_name_appeared_allowlist _ _ _ _).1 (by decide)


/-! ## Substring search -/

theorem find_eq_some (needle : CppString) :
    ∀ (s : CppString) (p : Nat), find s needle = some p →
      needle <+: s.drop p ∧ ∀ k, k < p → ¬ needle <+: s.drop k := by
  intro s
  induction s with
  | nil =>
    intro p h
    unfold find at h
    split at h
    · rename_i hp
      cases h
      exact ⟨List.isPrefixOf_iff_prefix.mp hp, fun k hk => absurd hk (Nat.not_lt_zero k)⟩
    · cases h
  | cons c cs ih =>
    intro p h
    unfold find at h
    split at h
    · rename_i hp
      cases h
      exact ⟨List.isPrefixOf_iff_prefix.mp hp, fun k hk => absurd hk (Nat.not_lt_zero k)⟩
    · rename_i hp
      cases hq : find cs needle with
      | none => rw [hq] at h; cases h
      | some q =>
        rw [hq] at h
        simp only [Option.map_some', Option.some.injEq] at h
        subst h
        obtain ⟨h1, h2⟩ := ih q hq
        refine ⟨by simpa using h1, fun k hk => ?_⟩
        cases k with
        | zero => simpa using hp
        | succ j => simpa using h2 j (by omega)

theorem find_eq_none (needle : CppString) :
    ∀ (s : CppString), find s needle = none → ∀ k, ¬ needle <+: s.drop k := by
  intro s
  induction s with
  | nil =>
    intro h k
    unfold find at h
    split at h
    · cases h
    · rename_i hp
      simpa using hp
  | cons c cs ih =>
    intro h k
    unfold find at h
    split at h
    · cases h
    · rename_i hp
      cases hq : find cs needle with
      | some q => rw [hq] at h; cases h
      | none =>
        cases k with
        | zero => simpa using hp
        | succ j => simpa using ih hq j

theorem find_of_first (needle s : CppString) (p : Nat)
    (h1 : needle <+: s.drop p) (h2 : ∀ k, k < p → ¬ needle <+: s.drop k) :
    find s needle = some p := by
  cases hq : find s needle with
  | none => exact absurd h1 (find_eq_none needle s hq p)
  | some q =>
    obtain ⟨h3, h4⟩ := find_eq_some needle s q hq
    rcases Nat.lt_trichotomy p q with hlt | heq | hgt
    · exact absurd h1 (h4 p hlt)
    · rw [heq]
    · exact absurd h3 (h2 q hgt)

theorem find_ne_none_of_infix (needle s : CppString) (h : needle <:+: s) :
    ∃ p, find s needle = some p := by
  cases hq : find s needle with
  | some q => exact ⟨q, rfl⟩
  | none =>
    exfalso
    obtain ⟨a, b, hab⟩ := h
    apply find_eq_none needle s hq a.length
    refine ⟨b, ?_⟩
    rw [← hab]
    simp

theorem infix_of_prefix_drop (needle s : CppString) (p : Nat)
    (h : needle <+: s.drop p) : needle <:+: s :=
  h.isInfix.trans (List.drop_suffix p s).isInfix

/-- An occurrence inside a prefix of `s` is an occurrence in `s` that ends
inside the prefix. -/
theorem prefix_drop_take (needle s : CppString) (c k : Nat) (hn : 0 < needle.length) :
    needle <+: (s.take c).drop k ↔ needle <+: s.drop k ∧ k + needle.length ≤ c := by
  rw [List.drop_take, List.prefix_take_iff]
  constructor
  · rintro ⟨h1, h2⟩; exact ⟨h1, by omega⟩
  · rintro ⟨h1, h2⟩; exact ⟨h1, by omega⟩

theorem find_take_none (needle s : CppString) (c : Nat) (hn : 0 < needle.length)
    (h : ∀ k, needle <+: s.drop k → c < k + needle.length) :
    find (s.take c) needle = none := by
  cases hq : find (s.take c) needle with
  | none => rfl
  | some q =>
    exfalso
    obtain ⟨h1, _⟩ := find_eq_some needle _ q hq
    rw [prefix_drop_take needle s c q hn] at h1
    have := h q h1.1
    omega

theorem find_take_some (needle s : CppString) (c q : Nat) (hn : 0 < needle.length)
    (h : find s needle = some q) (hc : q + needle.length ≤ c) :
    find (s.take c) needle = some q := by
  obtain ⟨h1, h2⟩ := find_eq_some needle s q h
  apply find_of_first
  · rw [prefix_drop_take needle s c q hn]; exact ⟨h1, hc⟩
  · intro k hk hp
    rw [prefix_drop_take needle s c k hn] at hp
    exact h2 k hk hp.1

theorem getElem?_of_prefix_drop (needle s : CppString) (k i : Nat)
    (h : needle <+: s.drop k) (hi : i < needle.length) :
    s[k + i]? = needle[i]? := by
  obtain ⟨t, ht⟩ := h
  rw [← List.getElem?_drop, ← ht, List.getElem?_append_left hi]

theorem find_and_replace_parenthesis_none (title needle : CppString)
    (h : find title needle = none) :
    find_and_replace_parenthesis title needle = title := by
  unfold find_and_replace_parenthesis
  rw [h]

theorem find_and_replace_parenthesis_some (title needle : CppString) (p : Nat)
    (h : find title needle = some p) :
    find_and_replace_parenthesis title needle =
      title.take (if 0 < p ∧ title[p - 1]? = some 32 then p - 1 else p) := by
  unfold find_and_replace_parenthesis
  rw [h]


theorem ft_length : (bytes "(ft").length = 3 := by decide

theorem feat_length : (bytes "(feat").length = 5 := by decide

/-- An occurrence of `"(feat"` that starts before an occurrence of `"(ft"`
ends before it, and before the space in front of it. -/
theorem feat_before_ft (title : CppString) (p q : Nat)
    (hft : bytes "(ft" <+: title.drop p) (hfeat : bytes "(feat" <+: title.drop q)
    (hlt : q < p) :
    q + 5 ≤ (if 0 < p ∧ title[p - 1]? = some 32 then p - 1 else p) := by
  have g0 := getElem?_of_prefix_drop _ title p 0 hft (by decide)
  have f1 := getElem?_of_prefix_drop _ title q 1 hfeat (by decide)
  have f2 := getElem?_of_prefix_drop _ title q 2 hfeat (by decide)
  have f3 := getElem?_of_prefix_drop _ title q 3 hfeat (by decide)
  have f4 := getElem?_of_prefix_drop _ title q 4 hfeat (by decide)
  have e0 : (bytes "(ft")[0]? = some 40 := by decide
  have e1 : (bytes "(feat")[1]? = some 102 := by decide
  have e2 : (bytes "(feat")[2]? = some 101 := by decide
  have e3 : (bytes "(feat")[3]? = some 97 := by decide
  have e4 : (bytes "(feat")[4]? = some 116 := by decide
  rw [e0, Nat.add_zero] at g0
  rw [e1] at f1; rw [e2] at f2; rw [e3] at f3; rw [e4] at f4
  have hp : q + 5 ≤ p := by
    have : p = q + 1 ∨ p = q + 2 ∨ p = q + 3 ∨ p = q + 4 ∨ q + 5 ≤ p := by omega
    rcases this with h | h | h | h | h
    · rw [h, f1] at g0; cases g0
    · rw [h, f2] at g0; cases g0
    · rw [h, f3] at g0; cases g0
    · rw [h, f4] at g0; cases g0
    · exact h
  split
  · rename_i hsp
    have : p ≠ q + 5 := by
      intro h
      have h5 := hsp.2
      rw [h] at h5
      have : q + 5 - 1 = q + 4 := by omega
      rw [this, f4] at h5
      cases h5
    omega
  · exact hp

theorem edit_title_eq (title : CppString) :
    edit_title title =
      find_and_replace_parenthesis
        (find_and_replace_parenthesis title (bytes "(ft")) (bytes "(feat") := rfl

/-! ## Claim about `edit_title` -/

/-- C1: `edit_title` returns the title unchanged when it contains neither
`"(ft"` nor `"(feat"`; when it contains one of them, there is an earliest
position `p` at which either marker starts, and `edit_title` returns the
bytes before `p`, without the space at `p - 1` when there is one. In
particular `"Song (ft Artist)"` and `"Song (feat. Artist)"` become `"Song"`,
and `"Plain Song"` stays as it is. -/
theorem edit_title_spec (title : CppString) :
    (¬ bytes "(ft" <:+: title → ¬ bytes "(feat" <:+: title →
      edit_title title = title) ∧
    (bytes "(ft" <:+: title ∨ bytes "(feat" <:+: title →
      ∃ p, (bytes "(ft" <+: title.drop p ∨ bytes "(feat" <+: title.drop p) ∧
        (∀ k, k < p →
          ¬ bytes "(ft" <+: title.drop k ∧ ¬ bytes "(feat" <+: title.drop k) ∧
        edit_title title =
          title.take (if 0 < p ∧ title[p - 1]? = some 32 then p - 1 else p)) ∧
    edit_title (bytes "Song (ft Artist)") = bytes "Song" ∧
    edit_title (bytes "Song (feat. Artist)") = bytes "Song" ∧
    edit_title (bytes "Plain Song") = bytes "Plain Song" := by
  refine ⟨?_, ?_, by decide, by decide, by decide⟩
  · intro h1 h2
    have g1 : find title (bytes "(ft") = none := by
      cases hq : find title (bytes "(ft") with
      | none => rfl
      | some q =>
        exact absurd (infix_of_prefix_drop _ _ q (find_eq_some _ _ q hq).1) h1
    have g2 : find title (bytes "(feat") = none := by
      cases hq : find title (bytes "(feat") with
      | none => rfl
      | some q =>
        exact absurd (infix_of_prefix_drop _ _ q (find_eq_some _ _ q hq).1) h2
    rw [edit_title_eq]
    simp only [find_and_replace_parenthesis_none _ _ g1,
      find_and_replace_parenthesis_none _ _ g2]
  · intro hin
    rw [edit_title_eq]
    cases hft : find title (bytes "(ft") with
    | none =>
      have nft := find_eq_none _ _ hft
      cases hfeat : find title (bytes "(feat") with
      | none =>
        exfalso
        rcases hin with h | h
        · obtain ⟨p, hp⟩ := find_ne_none_of_infix _ _ h
          rw [hft] at hp; cases hp
        · obtain ⟨p, hp⟩ := find_ne_none_of_infix _ _ h
          rw [hfeat] at hp; cases hp
      | some q =>
        obtain ⟨o1, o2⟩ := find_eq_some _ _ q hfeat
        refine ⟨q, Or.inr o1, fun k hk => ⟨nft k, o2 k hk⟩, ?_⟩
        simp only [find_and_replace_parenthesis_none _ _ hft,
          find_and_replace_parenthesis_some _ _ q hfeat]
    | some p =>
      obtain ⟨o1, o2⟩ := find_eq_some _ _ p hft
      rw [find_and_replace_parenthesis_some _ _ p hft]
      have hcp : (if 0 < p ∧ title[p - 1]? = some 32 then p - 1 else p) ≤ p := by
        split <;> omega
      cases hfeat : find title (bytes "(feat") with
      | none =>
        have nfeat := find_eq_none _ _ hfeat
        refine ⟨p, Or.inl o1, fun k hk => ⟨o2 k hk, nfeat k⟩, ?_⟩
        rw [find_and_replace_parenthesis_none]
        exact find_take_none _ _ _ (by decide) (fun k hk => absurd hk (nfeat k))
      | some q =>
        obtain ⟨r1, r2⟩ := find_eq_some _ _ q hfeat
        rcases Nat.lt_or_ge q p with hlt | hge
        · -- the `"(feat"` comes first and is cut by the second call
          have hq5 := feat_before_ft title p q o1 r1 hlt
          refine ⟨q, Or.inr r1, fun k hk => ⟨o2 k (by omega), r2 k hk⟩, ?_⟩
          have hfind := find_take_some (bytes "(feat") title
            (if 0 < p ∧ title[p - 1]? = some 32 then p - 1 else p) q (by decide) hfeat
            (by rw [feat_length]; exact hq5)
          rw [find_and_replace_parenthesis_some _ _ q hfind]
          have hget : 0 < q →
              (List.take (if 0 < p ∧ title[p - 1]? = some 32 then p - 1 else p)
                title)[q - 1]? = title[q - 1]? := fun hq0 =>
            List.getElem?_take_of_lt (by omega)
          have hcond : (0 < q ∧
              (List.take (if 0 < p ∧ title[p - 1]? = some 32 then p - 1 else p)
                title)[q - 1]? = some 32) ↔ (0 < q ∧ title[q - 1]? = some 32) := by
            constructor
            · rintro ⟨a, b⟩; exact ⟨a, by rw [← hget a]; exact b⟩
            · rintro ⟨a, b⟩; exact ⟨a, by rw [hget a]; exact b⟩
          rw [if_congr hcond rfl rfl, List.take_take]
          congr 1
          have : (if 0 < q ∧ title[q - 1]? = some 32 then q - 1 else q) ≤ q := by
            split <;> omega
          omega
        · -- the `"(ft"` comes first: nothing is left for the second call
          have hne : q ≠ p := by
            intro h
            subst h
            have a := getElem?_of_prefix_drop _ title q 2 o1 (by decide)
            have b := getElem?_of_prefix_drop _ title q 2 r1 (by decide)
            rw [a] at b
            revert b
            decide
          refine ⟨p, Or.inl o1, fun k hk => ⟨o2 k hk, r2 k (by omega)⟩, ?_⟩
          rw [find_and_replace_parenthesis_none]
          apply find_take_none _ _ _ (by decide)
          intro k hk
          rw [feat_length]
          by_contra hcon
          have : q ≤ k := by
            by_contra hkq
            exact r2 k (by omega) hk
          omega

theorem edit_title_spec_witness :
    ∃ p, (bytes "(ft" <+: (bytes "One (feat. A) (ft. B)").drop p ∨
          bytes "(feat" <+: (bytes "One (feat. A) (ft. B)").drop p) ∧
      (∀ k, k < p →
        ¬ bytes "(ft" <+: (bytes "One (feat. A) (ft. B)").drop k ∧
        ¬ bytes "(feat" <+: (bytes "One (feat. A) (ft. B)").drop k) ∧
      edit_title (bytes "One (feat. A) (ft. B)") =
        (bytes "One (feat. A) (ft. B)").take
          (if 0 < p ∧ (bytes "One (feat. A) (ft. B)")[p - 1]? = some 32
            then p - 1 else p) :=
  (edit_title_spec (bytes "One (feat. A) (ft. B)")).2.1
    (Or.inl (infix_of_prefix_drop _ _ 14 (by decide)))


/-! ## The presenter's output -/

theorem get_string_value_cout (read : ReadResult) (message : CppString) (io : Streams) :
    (get_string_value read message io).2.cout = io.cout := by
  unfold get_string_value
  rcases read with ⟨_ | e, _ | v⟩ <;> rfl

theorem get_string_value_fst (read : ReadResult) (message : CppString)
    (io io1 : Streams) :
    (get_string_value read message io).1 = (get_string_value read message io1).1 := by
  unfold get_string_value
  rcases read with ⟨_ | e, _ | v⟩ <;> rfl

/-- The presenter, step by step: the three reads, the early return, the two
truncations and the one write. -/
theorem show_metadata_eq (cfg : Config) (player : PlayerctlPlayer) (io : Streams) :
    show_metadata cfg player io =
      if (get_string_value player.title (bytes "Error obtaining title! ") io).1.isEmpty
      then some (get_string_value player.title (bytes "Error obtaining title! ") io).2
      else
        let io1 := (get_string_value player.title (bytes "Error obtaining title! ") io).2
        let io2 := (get_string_value player.artist (bytes "Error obtaining artist! ") io1).2
        let io3 := (get_string_value player.album (bytes "Error obtaining album! ") io2).2
        let full_title :=
          (get_string_value player.title (bytes "Error obtaining title! ") io).1
        let artist :=
          (get_string_value player.artist (bytes "Error obtaining artist! ") io).1
        let album :=
          (get_string_value player.album (bytes "Error obtaining album! ") io).1
        (truncate_string (edit_title full_title) (title_width cfg artist)).bind
          fun truncated_title =>
        (truncate_string artist (artist_width cfg (edit_title full_title))).bind
          fun truncated_album =>
        let line := output_line truncated_title truncated_album player.player_name
          (string_to_lowercase player.status) (edit_title full_title) artist album
        some { io3 with cout := io3.cout ++ line } := by
  unfold show_metadata
  simp only []
  split
  · rfl
  · rw [get_string_value_fst player.artist _ _ io, get_string_value_fst player.album _ _ io]
    cases truncate_string _ _ with
    | none => rfl
    | some t =>
      simp only [Option.bind]
      cases truncate_string _ _ with
      | none => rfl
      | some a => rfl

/-- Whenever both calls of `truncate_string` are defined and the title read
is not empty, the presenter appends to `std::cout` exactly the bytes of
`output_line`: the truncated title and artist in `text`, and the player name,
the lowercased status, the edited title, the artist and the album in
`tooltip`. -/
theorem show_metadata_writes_line (cfg : Config) (player : PlayerctlPlayer)
    (io : Streams) (truncated_title truncated_album : CppString)
    (hne : (get_string_value player.title (bytes "Error obtaining title! ") io).1 ≠ [])
    (ht : truncate_string
      (edit_title (get_string_value player.title (bytes "Error obtaining title! ") io).1)
      (title_width cfg
        (get_string_value player.artist (bytes "Error obtaining artist! ") io).1)
      = some truncated_title)
    (ha : truncate_string
      (get_string_value player.artist (bytes "Error obtaining artist! ") io).1
      (artist_width cfg
        (edit_title (get_string_value player.title (bytes "Error obtaining title! ") io).1))
      = some truncated_album) :
    (show_metadata cfg player io).map (fun after => after.cout) =
      some (io.cout ++
        output_line truncated_title truncated_album player.player_name
          (string_to_lowercase player.status)
          (edit_title (get_string_value player.title (bytes "Error obtaining title! ") io).1)
          (get_string_value player.artist (bytes "Error obtaining artist! ") io).1
          (get_string_value player.album (bytes "Error obtaining album! ") io).1) := by
  rw [show_metadata_eq]
  have he : (get_string_value player.title (bytes "Error obtaining title! ") io).1.isEmpty
      = false := by
    cases h : (get_string_value player.title (bytes "Error obtaining title! ") io).1 with
    | nil => exact absurd h hne
    | cons c cs => rfl
  simp only [he, ht, ha, Option.bind, get_string_value_cout]
  rfl


/-! ## Strings that need no escaping -/

theorem needs_no_escape_append (s t : CppString) (hs : needs_no_escape s)
    (ht : needs_no_escape t) : needs_no_escape (s ++ t) := by
  intro c hc
  rcases List.mem_append.mp hc with h | h
  · exact hs c h
  · exact ht c h

theorem needs_no_escape_take (s : CppString) (n : Nat) (hs : needs_no_escape s) :
    needs_no_escape (s.take n) :=
  fun c hc => hs c (List.mem_of_mem_take hc)

theorem needs_no_escape_lowercase (s : CppString) (hs : needs_no_escape s) :
    needs_no_escape (string_to_lowercase s) := by
  intro c hc
  unfold string_to_lowercase at hc
  obtain ⟨d, hd, rfl⟩ := List.mem_map.mp hc
  have := hs d hd
  unfold tolower
  split <;> omega

theorem needs_no_escape_find_and_replace (title needle : CppString)
    (h : needs_no_escape title) :
    needs_no_escape (find_and_replace_parenthesis title needle) := by
  unfold find_and_replace_parenthesis
  split
  · exact needs_no_escape_take _ _ h
  · exact h

theorem needs_no_escape_edit_title (title : CppString) (h : needs_no_escape title) :
    needs_no_escape (edit_title title) := by
  rw [edit_title_eq]
  exact needs_no_escape_find_and_replace _ _ (needs_no_escape_find_and_replace _ _ h)

theorem needs_no_escape_ellipsis : needs_no_escape ellipsis := by
  intro c hc
  have : c = 226 ∨ c = 128 ∨ c = 166 := by
    have e : ellipsis = [226, 128, 166] := by decide
    rw [e] at hc
    simpa using hc
  omega

theorem needs_no_escape_separator : needs_no_escape (bytes " - ") := by
  intro c hc
  have : c = 32 ∨ c = 45 := by
    have e : bytes " - " = [32, 45, 32] := by decide
    rw [e] at hc
    simp at hc
    omega
  omega

theorem needs_no_escape_truncate (s r : CppString) (width : Nat)
    (hs : needs_no_escape s) (h : truncate_string s width = some r) :
    needs_no_escape r := by
  unfold truncate_string at h
  split at h
  · simp only [] at h
    split at h
    · cases h
      exact needs_no_escape_append _ _ (needs_no_escape_take _ _ hs)
        needs_no_escape_ellipsis
    · cases h
  · cases h
    exact hs

/-! ## Recognising the output line -/

theorem json_chars_of_no_escape (s rest : CppString) (h : needs_no_escape s) :
    json_chars .plain (s ++ 34 :: rest) = some (s, rest) := by
  induction s with
  | nil => simp [json_chars]
  | cons c cs ih =>
    have hc := h c (List.mem_cons_self _ _)
    have hcs : needs_no_escape cs := fun d hd => h d (List.mem_cons_of_mem _ hd)
    have h1 : ¬ c = 34 := hc.2.1
    have h2 : ¬ c < 32 := by omega
    have h3 : ¬ c = 92 := hc.2.2
    rw [List.cons_append]
    unfold json_chars
    rw [if_neg h1, if_neg h2, if_neg h3, ih hcs]
    rfl

theorem json_string_of_no_escape (s rest : CppString) (h : needs_no_escape s) :
    json_string (34 :: (s ++ 34 :: rest)) = some (s, rest) := by
  simp only [json_string, if_true]
  exact json_chars_of_no_escape s rest h

theorem output_line_eq (truncated_title truncated_album player_name status title
    artist album : CppString) :
    output_line truncated_title truncated_album player_name status title artist album =
      123 :: 34 :: (bytes "text" ++ 34 :: 58 :: 32 :: 34 ::
        ((truncated_title ++ bytes " - " ++ truncated_album) ++ 34 :: 44 :: 32 :: 34 ::
          (bytes "tooltip" ++ 34 :: 58 :: 32 :: 34 ::
            ((player_name ++ bytes " (" ++ status ++ bytes "): " ++ title ++
              bytes " - " ++ artist ++ bytes " - " ++ album) ++
              34 :: 125 :: 10 :: [])))) := by
  have e1 : bytes "\x7b\"text\": \"" = 123 :: 34 :: (bytes "text" ++ [34, 58, 32, 34]) := by
    decide
  have e2 : bytes "\", \"tooltip\": \"" =
      34 :: 44 :: 32 :: 34 :: (bytes "tooltip" ++ [34, 58, 32, 34]) := by decide
  have e3 : bytes "\"\x7d" ++ bytes "\n" = [34, 125, 10] := by decide
  unfold output_line
  rw [e1, e2, e3]
  simp only [List.append_assoc, List.cons_append, List.nil_append]

theorem skip_ws_of_not_ws (c : Nat) (l : CppString) (h : json_ws c = false) :
    skip_ws (c :: l) = c :: l := by
  simp only [skip_ws, h]
  rfl

theorem skip_ws_space (l : CppString) : skip_ws (32 :: l) = skip_ws l := by
  have h : json_ws 32 = true := by decide
  simp only [skip_ws, h, if_true]

theorem json_expect_head (c : Nat) (l : CppString) : json_expect c (c :: l) = some l := by
  simp only [json_expect, if_true]

theorem json_two_strings_of_no_escape (name1 value1 name2 value2 : CppString)
    (h1 : needs_no_escape name1) (h2 : needs_no_escape value1)
    (h3 : needs_no_escape name2) (h4 : needs_no_escape value2) :
    json_two_strings
      (123 :: 34 :: (name1 ++ 34 :: 58 :: 32 :: 34 ::
        (value1 ++ 34 :: 44 :: 32 :: 34 ::
          (name2 ++ 34 :: 58 :: 32 :: 34 ::
            (value2 ++ 34 :: 125 :: 10 :: []))))) =
      some (name1, value1, name2, value2, [10]) := by
  unfold json_two_strings
  simp only [skip_ws_space, skip_ws_of_not_ws 123 _ (by decide),
    skip_ws_of_not_ws 34 _ (by decide), skip_ws_of_not_ws 58 _ (by decide),
    skip_ws_of_not_ws 44 _ (by decide), skip_ws_of_not_ws 125 _ (by decide),
    json_expect_head, json_string_of_no_escape _ _ h1,
    json_string_of_no_escape _ _ h2, json_string_of_no_escape _ _ h3,
    json_string_of_no_escape _ _ h4, bind, Option.bind, pure]

theorem needs_no_escape_text : needs_no_escape (bytes "text") := by
  intro c hc
  have e : bytes "text" = [116, 101, 120, 116] := by decide
  rw [e] at hc
  simp at hc
  omega

theorem needs_no_escape_tooltip : needs_no_escape (bytes "tooltip") := by
  intro c hc
  have e : bytes "tooltip" = [116, 111, 111, 108, 116, 105, 112] := by decide
  rw [e] at hc
  simp at hc
  omega

theorem is_text_tooltip_line_of_no_escape (text tooltip : CppString)
    (h1 : needs_no_escape text) (h2 : needs_no_escape tooltip) :
    is_text_tooltip_line
      (123 :: 34 :: (bytes "text" ++ 34 :: 58 :: 32 :: 34 ::
        (text ++ 34 :: 44 :: 32 :: 34 ::
          (bytes "tooltip" ++ 34 :: 58 :: 32 :: 34 ::
            (tooltip ++ 34 :: 125 :: 10 :: []))))) = true := by
  unfold is_text_tooltip_line
  rw [json_two_strings_of_no_escape _ _ _ _ needs_no_escape_text h1
    needs_no_escape_tooltip h2]
  have e : bytes "\n" = [10] := by decide
  simp [e]


theorem needs_no_escape_open : needs_no_escape (bytes " (") := by
  intro c hc
  have e : bytes " (" = [32, 40] := by decide
  rw [e] at hc
  simp at hc
  omega

theorem needs_no_escape_close : needs_no_escape (bytes "): ") := by
  intro c hc
  have e : bytes "): " = [41, 58, 32] := by decide
  rw [e] at hc
  simp at hc
  omega

/-! ## Claims about the presenter's output -/

/-- The end-to-end example of the specification: with both base widths 20,
the title `"Track (ft Someone)"`, the artist `"Band"`, the album `"Record"`,
the status `"Playing"` and the player `"spotify"`, the presenter writes the
line with the text `Track - Band` and the tooltip
`spotify (playing): Track - Band - Record`. -/
theorem show_metadata_example :
    (show_metadata ⟨[], 20, 20⟩
      ⟨bytes "spotify", bytes "Playing",
       ⟨none, some (bytes "Track (ft Someone)")⟩,
       ⟨none, some (bytes "Band")⟩,
       ⟨none, some (bytes "Record")⟩⟩ ⟨[], []⟩).map (fun after => after.cout) =
      some (bytes ("\x7b\"text\": \"Track - Band\", " ++
        "\"tooltip\": \"spotify (playing): Track - Band - Record\"\x7d\n")) := by
  decide

/-- C5 as the specification words it fails for a title with a double quote:
for the title `Say "Hi"` the presenter writes a line, and the line is not a
JSON object with the two string fields, because the quote inside the title
ends the string early. -/
theorem show_metadata_quote_not_json :
    (show_metadata ⟨[], 20, 20⟩
      ⟨bytes "spotify", bytes "Playing",
       ⟨none, some (bytes "Say \"Hi\"")⟩,
       ⟨none, some (bytes "Band")⟩,
       ⟨none, some (bytes "Record")⟩⟩ ⟨[], []⟩).map
        (fun after => is_text_tooltip_line after.cout) = some false := by
  decide

/-- C5, amended: when the player name, the status, the title, the artist and
the album contain no double quote, no backslash and no control character,
every line that `show_metadata` writes for a non-empty title is one JSON
object with exactly the two string fields `text` and `tooltip`, followed only
by a newline. -/
theorem show_metadata_line_is_json (cfg : Config) (player : PlayerctlPlayer)
    (io after : Streams)
    (hname : needs_no_escape player.player_name)
    (hstatus : needs_no_escape player.status)
    (htitle : needs_no_escape
      (get_string_value player.title (bytes "Error obtaining title! ") io).1)
    (hartist : needs_no_escape
      (get_string_value player.artist (bytes "Error obtaining artist! ") io).1)
    (halbum : needs_no_escape
      (get_string_value player.album (bytes "Error obtaining album! ") io).1)
    (hne : (get_string_value player.title (bytes "Error obtaining title! ") io).1 ≠ [])
    (hout : show_metadata cfg player io = some after) :
    ∃ line, after.cout = io.cout ++ line ∧ is_text_tooltip_line line = true := by
  have hed := needs_no_escape_edit_title _ htitle
  cases ht : truncate_string
      (edit_title (get_string_value player.title (bytes "Error obtaining title! ") io).1)
      (title_width cfg
        (get_string_value player.artist (bytes "Error obtaining artist! ") io).1) with
  | none =>
    rw [show_metadata_eq] at hout
    simp only [ht, Option.bind] at hout
    split at hout
    · rename_i he
      exact absurd (List.isEmpty_iff.mp he) hne
    · cases hout
  | some truncated_title =>
    cases ha : truncate_string
        (get_string_value player.artist (bytes "Error obtaining artist! ") io).1
        (artist_width cfg (edit_title
          (get_string_value player.title (bytes "Error obtaining title! ") io).1)) with
    | none =>
      rw [show_metadata_eq] at hout
      simp only [ht, ha, Option.bind] at hout
      split at hout
      · rename_i he
        exact absurd (List.isEmpty_iff.mp he) hne
      · cases hout
    | some truncated_album =>
      have hw := show_metadata_writes_line cfg player io _ _ hne ht ha
      rw [hout] at hw
      simp only [Option.map_some', Option.some.injEq] at hw
      refine ⟨_, hw, ?_⟩
      rw [output_line_eq]
      apply is_text_tooltip_line_of_no_escape
      · exact needs_no_escape_append _ _
          (needs_no_escape_append _ _ (needs_no_escape_truncate _ _ _ hed ht)
            needs_no_escape_separator)
          (needs_no_escape_truncate _ _ _ hartist ha)
      · repeat first
          | apply needs_no_escape_append
          | exact needs_no_escape_separator
          | exact needs_no_escape_open
          | exact needs_no_escape_close
          | exact needs_no_escape_lowercase _ hstatus
          | assumption

theorem show_metadata_line_is_json_witness :
    ∃ line,
      (bytes ("\x7b\"text\": \"Track - Band\", " ++
        "\"tooltip\": \"spotify (playing): Track - Band - Record\"\x7d\n")) =
        [] ++ line ∧
      is_text_tooltip_line line = true :=
  show_metadata_line_is_json ⟨[], 20, 20⟩
    ⟨bytes "spotify", bytes "Playing",
     ⟨none, some (bytes "Track (ft Someone)")⟩,
     ⟨none, some (bytes "Band")⟩,
     ⟨none, some (bytes "Record")⟩⟩ ⟨[], []⟩
    ⟨bytes ("\x7b\"text\": \"Track - Band\", " ++
        "\"tooltip\": \"spotify (playing): Track - Band - Record\"\x7d\n"), []⟩
    (by decide) (by decide) (by decide) (by decide) (by decide) (by decide)
    (by decide)


end PlayerManager
